/- Verification of the Tiny_Travel_Guide repository (NYC itinerary RAG pipeline).

   Shallow embedding of the Python sources:
     scripts/rag.py              (normalize_boroughs, TravelData, build_context)
     scripts/embedding_store.py  (EmbeddingClient, cosine_similarity, top_k_by_embedding)
     scripts/app.py              (main and its build_context call site)
     data/generate_dataset.py    (generate_nyc_hotel_dataset, boro_from_point)

   Modelling conventions:
   - pandas DataFrames are lists of records with the schema of the CSVs the
     repository generates (data/generate_dataset.py writes all referenced
     columns), so the "if col in df.columns" guards in rag.py are satisfied.
   - numeric cells hold the value pandas' to_numeric coercion yields:
     "none" stands for NaN, i.e. a missing or non-numeric cell.
   - Python str.lower / str.strip are modelled over the character list
     (ASCII, which covers every string the program compares).
   - list.sort / sort_values are stable sorts and are modelled by the stable
     List.insertionSort; pandas .sample(n) is a random choice of n rows and is
     modelled by an explicit sampler argument.
   - floats are modelled by rationals for CSV data and by reals where
     math.sqrt is involved (cosine_similarity); exceptions by Except. -/
import Mathlib

namespace TinyTravel

/- Python string primitives, over the character list. -/

def pyLower (s : String) : String := ⟨s.data.map Char.toLower⟩

def pySpace (c : Char) : Bool :=
  c = ' ' || c = '\t' || c = '\n' || c = '\r' || c = '\x0b' || c = '\x0c'

def pyStrip (s : String) : String :=
  ⟨((s.data.dropWhile pySpace).reverse.dropWhile pySpace).reverse⟩

/- rag.py, lines 12-20: supported borough names and aliases. -/
def BOROUGH_ALIASES : List (String × String) :=
  [("manhattan", "Manhattan"),
   ("brooklyn", "Brooklyn"),
   ("queens", "Queens"),
   ("bronx", "Bronx"),
   ("staten island", "Staten Island"),
   ("staten_island", "Staten Island"),
   ("statenisland", "Staten Island")]

/- The five canonical dataset labels (the values of BOROUGH_ALIASES). -/
def canonicalBoroughs : List String :=
  ["Manhattan", "Brooklyn", "Queens", "Bronx", "Staten Island"]

/- rag.py, line 34: key = (boro or "").strip().lower() -/
def pyKey (boro : String) : String := pyLower (pyStrip boro)

/- rag.py, lines 34-38: one iteration of the first loop of normalize_boroughs:
   skip blank keys, map recognized aliases, drop the rest. -/
def aliasStep (boro : String) : Option String :=
  if pyKey boro = "" then none else BOROUGH_ALIASES.lookup (pyKey boro)

/- rag.py, lines 32-38: the "names" list built by the first loop. -/
def collectNames (raw_boros : List String) : List String :=
  raw_boros.filterMap aliasStep

/- rag.py, lines 40-45: deduplicate while preserving order (seen set). -/
def dedupFirstBy {ρ κ : Type} [DecidableEq κ] (key : ρ → κ) :
    List κ → List ρ → List ρ
  | _, [] => []
  | seen, r :: rest =>
    if key r ∈ seen then dedupFirstBy key seen rest
    else r :: dedupFirstBy key (key r :: seen) rest

/- rag.py, lines 30-46. -/
def normalize_boroughs (raw_boros : List String) : List String :=
  dedupFirstBy id [] (collectNames raw_boros)

/- embedding_store.py. An EmbeddingClient is its (fallible) embed method:
   embed raises (missing package, failed call, empty vector) or returns a
   float vector, modelled as a real vector. -/

structure EmbeddingClient where
  embed : String → Except String (List ℝ)

/- embedding_store.py, lines 40-41: embed_many. -/
def embed_many (e : EmbeddingClient) (texts : List String) :
    Except String (List (List ℝ)) :=
  texts.mapM e.embed

/- embedding_store.py, lines 44-53: the value cosine_similarity computes when
   the lengths match (0.0 on a zero norm, dot/(norm_a*norm_b) otherwise). -/
open Classical in
noncomputable def cosValue (vec_a vec_b : List ℝ) : ℝ :=
  let dot := ((vec_a.zip vec_b).map fun p => p.1 * p.2).sum
  let norm_a := Real.sqrt ((vec_a.map fun a => a * a).sum)
  let norm_b := Real.sqrt ((vec_b.map fun b => b * b).sum)
  if norm_a = 0 ∨ norm_b = 0 then 0 else dot / (norm_a * norm_b)

/- embedding_store.py, lines 44-53: cosine_similarity, raising ValueError on a
   length mismatch. -/
noncomputable def cosine_similarity (vec_a vec_b : List ℝ) : Except String ℝ :=
  if vec_a.length ≠ vec_b.length then
    Except.error "Vectors must be same length for cosine similarity."
  else Except.ok (cosValue vec_a vec_b)

/- The comparator of scores.sort(key=lambda x: x[1], reverse=True): a stable
   descending sort on the second component. -/
noncomputable def simLE : (ℕ × ℝ) → (ℕ × ℝ) → Prop := fun x y => y.2 ≤ x.2

noncomputable instance : DecidableRel simLE := fun x y => Real.decidableLE y.2 x.2

instance : IsTotal (ℕ × ℝ) simLE := ⟨fun x y => le_total y.2 x.2⟩

instance : IsTrans (ℕ × ℝ) simLE := ⟨fun _ _ _ h1 h2 => le_trans h2 h1⟩

/- embedding_store.py, lines 56-71: top_k_by_embedding. Python's stable
   list.sort is modelled by the stable List.insertionSort. -/
noncomputable def top_k_by_embedding (query : String) (items : List String)
    (embedder : EmbeddingClient) (k : ℕ) : Except String (List ℕ) :=
  match embedder.embed query with
  | Except.error e => Except.error e
  | Except.ok query_vec =>
    if items = [] then Except.ok []
    else
      match embed_many embedder items with
      | Except.error e => Except.error e
      | Except.ok item_vecs =>
        match item_vecs.enum.mapM
            (fun p => (cosine_similarity query_vec p.2).map fun s => (p.1, s)) with
        | Except.error e => Except.error e
        | Except.ok scores =>
          Except.ok (((scores.insertionSort simLE).take k).map Prod.fst)

/- rag.py data model: rows of the three CSVs written by
   data/generate_dataset.py, with the columns rag.py touches.
   Numeric cells hold the pandas-coerced value (none = NaN). -/

structure HotelRow where
  name : String
  address1 : String
  city : String
  state_province : String
  postal_code : String
  latitude : Option ℚ
  longitude : Option ℚ
  star_rating : Option ℚ
  high_rate : Option ℚ
  low_rate : Option ℚ
  budget_tier : Option String
  BoroName : Option String
deriving DecidableEq, Inhabited

structure AttractionRow where
  Tourist_Spot : String
  Address : String
  Zipcode : String
  Region : String
  BoroName : Option String
deriving DecidableEq, Inhabited

structure RestaurantRow where
  Name : String
  Rating : Option ℚ
  Address : String
  latitude : Option ℚ
  longitude : Option ℚ
  ZipCode : String
  BoroName : Option String
deriving DecidableEq, Inhabited

/- rag.py, lines 22-27: budget buckets to nightly high_rate ranges; the claim
   "high" has no finite upper bound (float("inf")), modelled as none. -/
def BUDGET_TO_PRICE : List (String × ℚ × Option ℚ) :=
  [("low", 0, some 100), ("medium", 100, some 300), ("high", 300, none)]

/- rag.py, lines 49-72: TravelData state. The embedding backend construction
   (EmbeddingClient(), which may raise) is held as an Except; pandas .sample
   randomness is passed in as an explicit sampler. -/
structure TravelData where
  attractions : List AttractionRow
  restaurants : List RestaurantRow
  hotels : List HotelRow
  use_embeddings : Bool
  embInit : Except String EmbeddingClient

/- rag.py, lines 61-72: the embedder property; on a construction failure the
   None fallback is cached and returned. -/
def TravelData.embedder (td : TravelData) : Option EmbeddingClient :=
  if td.use_embeddings then
    match td.embInit with
    | Except.ok e => some e
    | Except.error _ => none
  else none

/- rag.py, line 83: BoroName.str.lower().isin(lowered boroughs); NaN is False. -/
def boroMask (boros : List String) (b? : Option String) : Bool :=
  match b? with
  | some b => (boros.map pyLower).contains (pyLower b)
  | none => false

/- rag.py, lines 80-88: _filter_boros with its fall-back to the whole table
   when the filter empties it. -/
def filter_boros {ρ : Type} (boroOf : ρ → Option String) (df : List ρ)
    (boros : List String) : List ρ :=
  if boros = [] then df
  else if (df.filter fun r => boroMask boros (boroOf r)).isEmpty then df
  else df.filter fun r => boroMask boros (boroOf r)

/- pandas .sample(n) draws n rows from the frame; the sampler is any function
   that, when n is at most the population size, returns n of its rows. -/
def Sampler (ρ : Type) : Type := List ρ → ℕ → List ρ

def SamplerOK {ρ : Type} (samp : Sampler ρ) : Prop :=
  ∀ l n, n ≤ l.length → (samp l n).length = n ∧ ∀ x ∈ samp l n, x ∈ l

def takeSampler {ρ : Type} : Sampler ρ := fun l n => l.take n

/- The common re-ranking block (rag.py lines 136-156, 164-184, 201-216):
   build the texts, call top_k_by_embedding with k = min(limit, len(texts)),
   take df.iloc[idxs]; any exception is swallowed, keeping df. -/
noncomputable def rerank {ρ : Type} [Inhabited ρ] (emb : Option EmbeddingClient)
    (query : String) (textOf : ρ → String) (limit : ℕ) (df : List ρ) : List ρ :=
  match emb with
  | none => df
  | some e =>
    match top_k_by_embedding query (df.map textOf) e (min limit df.length) with
    | Except.error _ => df
    | Except.ok idxs =>
      if idxs.all fun i => i < df.length then
        idxs.map fun i => df.getD i default
      else df

/- Python "s or dflt" on strings: empty is falsy. -/
def strOr (s dflt : String) : String := if s = "" then dflt else s

/- Python "sep.join(parts) or dflt". -/
def joinedOr (sep : String) (parts : List String) (dflt : String) : String :=
  strOr (sep.intercalate parts) dflt

/- str() of a possibly-NaN cell, as fed to the embedder. -/
def qStr (v : Option ℚ) : String :=
  match v with
  | some q => toString q
  | none => "nan"

def sStr (v : Option String) : String :=
  match v with
  | some s => s
  | none => "nan"

/- rag.py, line 148. -/
def hotelQuery (boros : List String) (budget : String) : String :=
  "hotel options for " ++ joinedOr ", " boros "all boroughs" ++ " in NYC at " ++
    strOr budget "medium" ++ " budget"

/- rag.py, line 176. -/
def attractionQuery (boros : List String) : String :=
  "NYC attractions clustered per borough: " ++ joinedOr ", " boros "all boroughs"

/- rag.py, line 209. -/
def restaurantQuery (boros : List String) : String :=
  "NYC trip food near attractions in " ++ joinedOr ", " boros "all boroughs"

/- rag.py, lines 139-146, 167-174, 204-207: the item texts. -/
def hotelText (r : HotelRow) : String :=
  " | ".intercalate [r.name, r.address1, r.city, qStr r.star_rating, sStr r.BoroName]

def attractionText (r : AttractionRow) : String :=
  " | ".intercalate [r.Tourist_Spot, r.Address, r.Region, sStr r.BoroName]

def restaurantText (r : RestaurantRow) : String :=
  " | ".intercalate [r.Name, qStr r.Rating, r.Address, qStr r.latitude,
    qStr r.longitude, r.ZipCode, sStr r.BoroName]

/- rag.py, lines 107-111: sort_values on [star_rating, high_rate, low_rate],
   ascending=[False, True, True], na_position="last": per-key three-way
   comparison with NaN ordered last regardless of direction; the multi-key
   pandas sort is stable and is modelled by the stable List.insertionSort. -/
def cmpDescNaLast (a b : Option ℚ) : Ordering :=
  match a, b with
  | some x, some y => if y < x then Ordering.lt else if x < y then Ordering.gt else Ordering.eq
  | some _, none => Ordering.lt
  | none, some _ => Ordering.gt
  | none, none => Ordering.eq

def cmpAscNaLast (a b : Option ℚ) : Ordering :=
  match a, b with
  | some x, some y => if x < y then Ordering.lt else if y < x then Ordering.gt else Ordering.eq
  | some _, none => Ordering.lt
  | none, some _ => Ordering.gt
  | none, none => Ordering.eq

def hotelSortLE (x y : HotelRow) : Prop :=
  ((cmpDescNaLast x.star_rating y.star_rating).then
    ((cmpAscNaLast x.high_rate y.high_rate).then
      (cmpAscNaLast x.low_rate y.low_rate))) ≠ Ordering.gt

instance : DecidableRel hotelSortLE := fun x y => by
  unfold hotelSortLE
  infer_instance

/- rag.py, lines 190-191: sort_values("Rating", ascending=False,
   na_position="last"): descending on Rating with NaN ordered last, i.e.
   descending on the key in WithBot where NaN is bottom. -/
def ratingKey (v : Option ℚ) : WithBot ℚ :=
  match v with
  | some q => (q : WithBot ℚ)
  | none => ⊥

def restSortLE (x y : RestaurantRow) : Prop := ratingKey y.Rating ≤ ratingKey x.Rating

instance : DecidableRel restSortLE := fun x y => by
  unfold restSortLE
  infer_instance

instance : IsTotal RestaurantRow restSortLE :=
  ⟨fun x y => le_total (ratingKey y.Rating) (ratingKey x.Rating)⟩

instance : IsTrans RestaurantRow restSortLE := ⟨fun _ _ _ h1 h2 => le_trans h2 h1⟩

/- rag.py, lines 101-106: has budget_tier / high_rate in range, over the
   looked-up BUDGET_TO_PRICE range; NaN rates fail the comparison. -/
def rateFilterOK (range : ℚ × Option ℚ) (v? : Option ℚ) : Bool :=
  match v? with
  | some v =>
    decide (range.1 ≤ v) &&
      (match range.2 with
       | some h => decide (v < h)
       | none => true)
  | none => false

/- rag.py, lines 117-134: df = df[cols]; of the modelled columns only
   budget_tier is dropped. -/
def projectHotel (r : HotelRow) : HotelRow := { r with budget_tier := none }

/- rag.py, lines 90-134: hotels_for_budget before the embedding block. -/
def hotels_core (td : TravelData) (samp : Sampler HotelRow) (boros : List String)
    (budget : String) (limit : ℕ) : List HotelRow :=
  let df0 := filter_boros (fun r : HotelRow => r.BoroName) td.hotels boros
  let budget_key := pyLower budget
  -- to_numeric on high_rate / low_rate: cells already hold the coerced value
  let df1 := df0.filter fun r : HotelRow => r.budget_tier == some budget_key
  let df2 := match BUDGET_TO_PRICE.lookup budget_key with
    | some range => df1.filter fun r : HotelRow => rateFilterOK range r.high_rate
    | none => df1
  let df3 := df2.insertionSort hotelSortLE
  -- lines 112-115: keep a top slice, then sample for variety
  let df4 := if limit < df3.length then samp (df3.take (limit * 3)) limit else df3
  df4.map projectHotel

/- rag.py, lines 90-156. -/
noncomputable def hotels_for_budget (td : TravelData) (samp : Sampler HotelRow)
    (boros : List String) (budget : String) (limit : ℕ) : List HotelRow :=
  rerank td.embedder (hotelQuery boros budget) hotelText limit
    (hotels_core td samp boros budget limit)

/- rag.py, lines 158-163: pick_attractions before the embedding block. -/
def attractions_core (td : TravelData) (samp : Sampler AttractionRow)
    (boros : List String) (limit : ℕ) : List AttractionRow :=
  let df0 := filter_boros (fun r : AttractionRow => r.BoroName) td.attractions boros
  let df1 := dedupFirstBy (fun r : AttractionRow => r.Tourist_Spot) [] df0
  if limit < df1.length then samp df1 limit else df1

/- rag.py, lines 158-184. -/
noncomputable def pick_attractions (td : TravelData) (samp : Sampler AttractionRow)
    (boros : List String) (limit : ℕ) : List AttractionRow :=
  rerank td.embedder (attractionQuery boros) attractionText limit
    (attractions_core td samp boros limit)

/- rag.py, lines 186-199: pick_restaurants before the embedding block;
   the df[cols] projection keeps every modelled column. -/
def restaurants_core (td : TravelData) (boros : List String) (limit : ℕ) :
    List RestaurantRow :=
  let df0 := filter_boros (fun r : RestaurantRow => r.BoroName) td.restaurants boros
  let df1 := dedupFirstBy (fun r : RestaurantRow => r.Name) [] df0
  let df2 := df1.insertionSort restSortLE
  if limit < df2.length then df2.take limit else df2

/- rag.py, lines 186-217. -/
noncomputable def pick_restaurants (td : TravelData) (boros : List String)
    (limit : ℕ) : List RestaurantRow :=
  rerank td.embedder (restaurantQuery boros) restaurantText limit
    (restaurants_core td boros limit)

/- rag.py, lines 219-251: the text formatters. -/
def format_hotels (df : List HotelRow) : String :=
  "\n".intercalate (df.map fun r =>
    "- " ++ r.name ++ " (" ++ sStr r.BoroName ++ ") | " ++ qStr r.star_rating ++
      " stars | $" ++ qStr r.low_rate ++ "-" ++ qStr r.high_rate ++ " | " ++ r.address1)

def format_attractions (df : List AttractionRow) : String :=
  "\n".intercalate (df.map fun r =>
    "- " ++ r.Tourist_Spot ++ " (" ++ sStr r.BoroName ++ ", " ++ r.Region ++
      ") at " ++ r.Address)

def format_restaurants (df : List RestaurantRow) : String :=
  "\n".intercalate (df.map fun r =>
    "- " ++ r.Name ++ " (" ++ sStr r.BoroName ++ ") | rating " ++ qStr r.Rating ++
      (if r.Address = "" then "" else " | " ++ r.Address))

/- rag.py, lines 254-274: build_context (samplers made explicit). -/
noncomputable def build_context (boros : List String) (budget : String) (days : ℕ)
    (data : TravelData) (sampH : Sampler HotelRow) (sampA : Sampler AttractionRow) :
    String :=
  let hotels := hotels_for_budget data sampH boros budget 6
  let attractions := pick_attractions data sampA boros (max (days * 3) 18)
  let restaurants := pick_restaurants data boros (max (days * 3) 18)
  let hotel_text := strOr (format_hotels hotels)
    "- No matching hotels; suggest reasonable options."
  let attraction_text := strOr (format_attractions attractions)
    "- No attractions found; suggest iconic sights."
  let restaurant_text := strOr (format_restaurants restaurants)
    "- No restaurants found; suggest dependable picks."
  let chosen_boros := if boros = [] then "All boroughs" else ", ".intercalate boros
  let budget_text := strOr budget "medium"
  "Traveler request: " ++ toString days ++ " day(s) in NYC, boroughs: " ++
    chosen_boros ++ ", budget: " ++ budget_text ++ ".\n" ++
    "Hotels filtered by borough and budget (pick ONE as a home base for the whole trip):\n" ++
    hotel_text ++ "\n\n" ++
    "Attractions to pull from (with addresses; use each attraction at most once):\n" ++
    attraction_text ++ "\n\n" ++
    "Restaurants to mix in (name + rating + address; keep these near daily attractions):\n" ++
    restaurant_text ++ "\n"

/- The shape claimed for build_context output: the traveler-request first
   line, then the hotels, attractions and restaurants sections in order, each
   section text the formatted listing or, when that is empty, its fixed
   non-empty placeholder. -/
def BuildContextShape (boros : List String) (budget : String) (days : ℕ)
    (td : TravelData) (sampH : Sampler HotelRow) (sampA : Sampler AttractionRow) :
    Prop :=
  ∃ hotel_text attraction_text restaurant_text,
    build_context boros budget days td sampH sampA =
      "Traveler request: " ++ toString days ++ " day(s) in NYC, boroughs: " ++
        (if boros = [] then "All boroughs" else ", ".intercalate boros) ++
        ", budget: " ++ (if budget = "" then "medium" else budget) ++ ".\n" ++
      "Hotels filtered by borough and budget (pick ONE as a home base for the whole trip):\n" ++
        hotel_text ++ "\n\n" ++
      "Attractions to pull from (with addresses; use each attraction at most once):\n" ++
        attraction_text ++ "\n\n" ++
      "Restaurants to mix in (name + rating + address; keep these near daily attractions):\n" ++
        restaurant_text ++ "\n" ∧
    hotel_text ≠ "" ∧ attraction_text ≠ "" ∧ restaurant_text ≠ "" ∧
    (hotel_text = format_hotels (hotels_for_budget td sampH boros budget 6) ∨
      (format_hotels (hotels_for_budget td sampH boros budget 6) = "" ∧
        hotel_text = "- No matching hotels; suggest reasonable options.")) ∧
    (attraction_text =
        format_attractions (pick_attractions td sampA boros (max (days * 3) 18)) ∨
      (format_attractions (pick_attractions td sampA boros (max (days * 3) 18)) = "" ∧
        attraction_text = "- No attractions found; suggest iconic sights.")) ∧
    (restaurant_text =
        format_restaurants (pick_restaurants td boros (max (days * 3) 18)) ∨
      (format_restaurants (pick_restaurants td boros (max (days * 3) 18)) = "" ∧
        restaurant_text = "- No restaurants found; suggest dependable picks."))

/- app.py, lines 171-184: main gathers answers, then evaluates
   build_context(boros, budget, days, data, season=season, pace=pace).
   Python binds a call of a function with no defaults and no varargs by:
   positional count at most the parameter count, every keyword naming a
   not-yet-bound parameter, and every parameter bound; otherwise TypeError. -/
def pyCallBinds (params : List String) (numPositional : ℕ)
    (kwargs : List String) : Bool :=
  decide (numPositional ≤ params.length) &&
  (kwargs.all fun k => (params.drop numPositional).contains k) &&
  ((params.drop numPositional).all fun p => kwargs.contains p) &&
  kwargs.Nodup

/- rag.py, lines 254-256: def build_context(boros, budget, days, data). -/
def build_context_params : List String := ["boros", "budget", "days", "data"]

/- app.py, line 180: 4 positional arguments plus season= and pace=. -/
def main_call_numPositional : ℕ := 4

def main_call_kwargs : List String := ["season", "pace"]

/- app.py main, after the interactive prompts: either the build_context call
   binds and the flow goes on to build the prompt and call the model, or the
   call raises TypeError. -/
inductive MainOutcome where
  | typeError
  | generated (itinerary : String)
deriving DecidableEq

noncomputable def main_model (days : ℕ) (boros : List String)
    (budget season pace : String) (data : TravelData) (sampH : Sampler HotelRow)
    (sampA : Sampler AttractionRow) (llm : String → String)
    (promptOf : String → ℕ → List String → String → String → String → String) :
    MainOutcome :=
  if pyCallBinds build_context_params main_call_numPositional main_call_kwargs then
    MainOutcome.generated
      (llm (promptOf (build_context boros budget days data sampH sampA)
        days boros budget season pace))
  else MainOutcome.typeError

/- data/generate_dataset.py. A borough shape is its containment test (the
   shapely geom.contains, abstract) plus its BoroName property; the
   EPSG:4326 to EPSG:2263 transformer is an abstract plane map. -/

structure BoroShape where
  contains : ℚ × ℚ → Bool
  BoroName : String

/- data/generate_dataset.py: a raw hotel row, rates already coerced by
   to_numeric(errors="coerce") (lines 74-75); none = NaN. -/
structure RawHotelRow where
  latitude : Option ℚ
  longitude : Option ℚ
  high_rate : Option ℚ
  low_rate : Option ℚ
deriving DecidableEq, Inhabited

/- The columns of the written frame that the claims mention. -/
structure GenHotelRow where
  latitude : Option ℚ
  longitude : Option ℚ
  high_rate : Option ℚ
  low_rate : Option ℚ
  BoroName : Option String
  budget_tier : Option String
deriving DecidableEq, Inhabited

/- data/generate_dataset.py, lines 35-46: point-in-polygon borough lookup;
   None when either coordinate is NaN, else the first containing shape. -/
def boro_from_point (lat lon : Option ℚ) (borough_geoms : List BoroShape)
    (transformer : ℚ × ℚ → ℚ × ℚ) : Option String :=
  match lat, lon with
  | some la, some lo =>
    ((borough_geoms.find? fun s => s.contains (transformer (lo, la))).map
      fun s => s.BoroName)
  | _, _ => none

/- data/generate_dataset.py, lines 95-102: _budget_tier. -/
def budget_tier_of (rate : Option ℚ) : Option String :=
  match rate with
  | none => none
  | some r =>
    if r < 100 then some "low"
    else if r < 300 then some "medium"
    else some "high"

/- data/generate_dataset.py, lines 52-111: tag with BoroName, keep rows inside
   NYC, drop non-positive rates, derive budget_tier. -/
def generate_nyc_hotel_dataset (hotels : List RawHotelRow)
    (borough_shapes : List BoroShape) (transformer : ℚ × ℚ → ℚ × ℚ) :
    List GenHotelRow :=
  let tagged := hotels.map fun h =>
    { latitude := h.latitude, longitude := h.longitude,
      high_rate := h.high_rate, low_rate := h.low_rate,
      BoroName := boro_from_point h.latitude h.longitude borough_shapes transformer,
      budget_tier := none : GenHotelRow }
  let nyc := tagged.filter fun h => h.BoroName.isSome
  let priced := nyc.filter fun h =>
    (match h.high_rate with
     | some r => decide (0 < r)
     | none => false) &&
    (match h.low_rate with
     | some r => decide (0 < r)
     | none => false)
  priced.map fun h => { h with budget_tier := budget_tier_of h.high_rate }

/- The total embedder of claim C4 (a total text-to-vector function), wrapped
   as an EmbeddingClient whose embed never raises. -/
noncomputable def totalClient (emb : String → List ℝ) : EmbeddingClient :=
  ⟨fun t => Except.ok (emb t)⟩

/- The cosine score against the query of the item at index i, for a total
   embedder. -/
noncomputable def simOf (emb : String → List ℝ) (query : String)
    (items : List String) (i : ℕ) : ℝ :=
  cosValue (emb query) (emb (items.getD i ""))

/- The (index, score) list top_k_by_embedding sorts, for a total embedder. -/
noncomputable def scoresOf (emb : String → List ℝ) (query : String)
    (items : List String) : List (ℕ × ℝ) :=
  (items.map emb).enum.map fun p => (p.1, cosValue (emb query) p.2)

/- Concrete fixtures used by witnesses and counterexamples. -/

def brooklynAttr : AttractionRow :=
  { Tourist_Spot := "Brooklyn Bridge", Address := "Brooklyn, NY", Zipcode := "11201",
    Region := "NY", BoroName := some "Brooklyn" }

def fixtureHotel : HotelRow :=
  { name := "Midtown Inn", address1 := "1 5th Ave", city := "New York",
    state_province := "NY", postal_code := "10001", latitude := some 40,
    longitude := some (-74), star_rating := some 4, high_rate := some 250,
    low_rate := some 150, budget_tier := some "medium", BoroName := some "Manhattan" }

def fixtureRest : RestaurantRow :=
  { Name := "Joe's Pizza", Rating := some 5, Address := "7 Carmine St",
    latitude := some 40, longitude := some (-74), ZipCode := "10014",
    BoroName := some "Manhattan" }

/- TravelData with a failed embedding-backend construction. -/
def tdEmbFail : TravelData :=
  { attractions := [brooklynAttr], restaurants := [fixtureRest],
    hotels := [fixtureHotel], use_embeddings := true,
    embInit := Except.error "ollama down" }

/- TravelData with embeddings disabled, Brooklyn-only attractions. -/
def tdNoEmb : TravelData :=
  { attractions := [brooklynAttr], restaurants := [fixtureRest],
    hotels := [fixtureHotel], use_embeddings := false,
    embInit := Except.error "unused" }

/- TravelData whose three tables are all in Manhattan (failed backend). -/
def manhattanAttr : AttractionRow :=
  { Tourist_Spot := "Empire State Building", Address := "20 W 34th St, New York, NY",
    Zipcode := "10001", Region := "NY", BoroName := some "Manhattan" }

def tdManhattan : TravelData :=
  { attractions := [manhattanAttr], restaurants := [fixtureRest],
    hotels := [fixtureHotel], use_embeddings := true,
    embInit := Except.error "ollama down" }

/- Dataset-generator fixtures. -/
def genShape : BoroShape := { contains := fun _ => true, BoroName := "Manhattan" }

def genRaw : RawHotelRow :=
  { latitude := some 1, longitude := some 2, high_rate := some 50, low_rate := some 40 }

def genRow : GenHotelRow :=
  { latitude := some 1, longitude := some 2, high_rate := some 50,
    low_rate := some 40, BoroName := some "Manhattan", budget_tier := some "low" }

/- Helper theorems, then the claim theorems with their witnesses. -/

/- Helper lemmas about dedupFirstBy. -/

theorem mem_of_mem_dedupFirstBy {ρ κ : Type} [DecidableEq κ] {key : ρ → κ}
    {seen : List κ} {l : List ρ} {r : ρ} (h : r ∈ dedupFirstBy key seen l) :
    r ∈ l := by
  induction l generalizing seen with
  | nil => simp [dedupFirstBy] at h
  | cons x rest ih =>
    by_cases hx : key x ∈ seen
    · simp only [dedupFirstBy, if_pos hx] at h
      exact List.mem_cons_of_mem _ (ih h)
    · simp only [dedupFirstBy, if_neg hx, List.mem_cons] at h
      rcases h with h | h
      · exact h ▸ List.mem_cons_self _ _
      · exact List.mem_cons_of_mem _ (ih h)

theorem key_notin_seen_of_mem_dedupFirstBy {ρ κ : Type} [DecidableEq κ]
    {key : ρ → κ} {seen : List κ} {l : List ρ} {r : ρ}
    (h : r ∈ dedupFirstBy key seen l) : key r ∉ seen := by
  induction l generalizing seen with
  | nil => simp [dedupFirstBy] at h
  | cons x rest ih =>
    by_cases hx : key x ∈ seen
    · simp only [dedupFirstBy, if_pos hx] at h
      exact ih h
    · simp only [dedupFirstBy, if_neg hx, List.mem_cons] at h
      rcases h with h | h
      · exact h ▸ hx
      · intro hc
        exact ih h (List.mem_cons_of_mem _ hc)

theorem keys_nodup_dedupFirstBy {ρ κ : Type} [DecidableEq κ] {key : ρ → κ}
    (seen : List κ) (l : List ρ) :
    ((dedupFirstBy key seen l).map key).Nodup := by
  induction l generalizing seen with
  | nil => simp [dedupFirstBy]
  | cons x rest ih =>
    by_cases hx : key x ∈ seen
    · simpa only [dedupFirstBy, if_pos hx] using ih seen
    · simp only [dedupFirstBy, if_neg hx, List.map_cons, List.nodup_cons]
      refine ⟨?_, ih (key x :: seen)⟩
      intro hc
      rcases List.mem_map.mp hc with ⟨r, hr, hkr⟩
      exact key_notin_seen_of_mem_dedupFirstBy hr (hkr ▸ List.mem_cons_self _ _)

theorem nodup_dedupFirstBy {ρ κ : Type} [DecidableEq κ] {key : ρ → κ}
    (seen : List κ) (l : List ρ) : (dedupFirstBy key seen l).Nodup :=
  (keys_nodup_dedupFirstBy seen l).of_map key

/- Elements pass through dedupFirstBy in order of first occurrence:
   positions in the output are ordered by index of first occurrence in the
   input (for the identity key). -/
theorem pairwise_indexOf_dedupFirstBy {κ : Type} [DecidableEq κ]
    (seen : List κ) (l : List κ) :
    (dedupFirstBy id seen l).Pairwise fun a b => l.indexOf a < l.indexOf b := by
  induction l generalizing seen with
  | nil => simp [dedupFirstBy]
  | cons x rest ih =>
    by_cases hx : (id x : κ) ∈ seen
    · simp only [dedupFirstBy, if_pos hx]
      refine (ih seen).imp_of_mem ?_
      intro a b ha hb hab
      have hane : a ≠ x := by
        intro hc
        exact key_notin_seen_of_mem_dedupFirstBy ha (by simpa [hc] using hx)
      have hbne : b ≠ x := by
        intro hc
        exact key_notin_seen_of_mem_dedupFirstBy hb (by simpa [hc] using hx)
      rw [List.indexOf_cons_ne _ (Ne.symm hane), List.indexOf_cons_ne _ (Ne.symm hbne)]
      exact Nat.succ_lt_succ hab
    · simp only [dedupFirstBy, if_neg hx, List.pairwise_cons]
      constructor
      · intro b hb
        have hbne : b ≠ x := by
          intro hc
          exact key_notin_seen_of_mem_dedupFirstBy hb
            (by simp [hc])
        rw [List.indexOf_cons_self, List.indexOf_cons_ne _ (Ne.symm hbne)]
        exact Nat.succ_pos _
      · refine (ih (id x :: seen)).imp_of_mem ?_
        intro a b ha hb hab
        have hane : a ≠ x := by
          intro hc
          exact key_notin_seen_of_mem_dedupFirstBy ha (by simp [hc])
        have hbne : b ≠ x := by
          intro hc
          exact key_notin_seen_of_mem_dedupFirstBy hb (by simp [hc])
        rw [List.indexOf_cons_ne _ (Ne.symm hane), List.indexOf_cons_ne _ (Ne.symm hbne)]
        exact Nat.succ_lt_succ hab

theorem dedupFirstBy_eq_self {κ : Type} [DecidableEq κ] {l : List κ}
    (hl : l.Nodup) (seen : List κ) (hs : ∀ x ∈ l, x ∉ seen) :
    dedupFirstBy id seen l = l := by
  induction l generalizing seen with
  | nil => rfl
  | cons x rest ih =>
    have hx : (id x : κ) ∉ seen := hs x (List.mem_cons_self _ _)
    simp only [dedupFirstBy, if_neg hx]
    congr 1
    refine ih (List.nodup_cons.mp hl).2 _ ?_
    intro y hy
    simp only [List.mem_cons, not_or]
    refine ⟨fun hc => (List.nodup_cons.mp hl).1 ?_, hs y (List.mem_cons_of_mem _ hy)⟩
    simpa [hc] using hy

/- Values of the alias table are canonical labels. -/
theorem lookup_mem_snd {κ ν : Type} [BEq κ] {ps : List (κ × ν)} {k : κ} {v : ν}
    (h : ps.lookup k = some v) : v ∈ ps.map Prod.snd := by
  induction ps with
  | nil => simp [List.lookup] at h
  | cons p rest ih =>
    rcases p with ⟨a, w⟩
    rw [List.lookup] at h
    cases hk : (k == a) with
    | true =>
      rw [hk] at h
      simp only [Option.some.injEq] at h
      simp [h]
    | false =>
      rw [hk] at h
      exact List.mem_cons_of_mem _ (ih h)

theorem mem_canonical_of_mem_collectNames {raw : List String} {x : String}
    (h : x ∈ collectNames raw) : x ∈ canonicalBoroughs := by
  rcases List.mem_filterMap.mp h with ⟨b, _, hb⟩
  unfold aliasStep at hb
  split at hb
  · exact absurd hb (by simp)
  · have hx : x ∈ BOROUGH_ALIASES.map Prod.snd := lookup_mem_snd hb
    have hlist : BOROUGH_ALIASES.map Prod.snd =
        ["Manhattan", "Brooklyn", "Queens", "Bronx",
         "Staten Island", "Staten Island", "Staten Island"] := by decide
    rw [hlist] at hx
    simp only [List.mem_cons, List.not_mem_nil, or_false] at hx
    rcases hx with rfl | rfl | rfl | rfl | rfl | rfl | rfl <;> decide

/- Canonical labels normalize to themselves through the alias step. -/
theorem aliasStep_canonical {x : String} (hx : x ∈ canonicalBoroughs) :
    aliasStep x = some x := by
  have hx : x ∈ ["Manhattan", "Brooklyn", "Queens", "Bronx", "Staten Island"] := hx
  simp only [List.mem_cons, List.not_mem_nil, or_false] at hx
  rcases hx with rfl | rfl | rfl | rfl | rfl <;> decide

theorem collectNames_of_canonical {l : List String}
    (h : ∀ x ∈ l, x ∈ canonicalBoroughs) : collectNames l = l := by
  induction l with
  | nil => rfl
  | cons x rest ih =>
    have hx := aliasStep_canonical (h x (List.mem_cons_self _ _))
    simp only [collectNames, List.filterMap_cons, hx]
    exact congrArg (x :: ·) (ih fun y hy => h y (List.mem_cons_of_mem _ hy))

/-- C10: normalize_boroughs returns a duplicate-free list of canonical borough
labels in order of first occurrence in the collected names, dropping
unrecognized or blank entries, and it is idempotent. -/
theorem normalize_boroughs_spec (raw : List String) :
    (∀ x ∈ normalize_boroughs raw, x ∈ canonicalBoroughs) ∧
    (∀ x ∈ normalize_boroughs raw, x ∈ collectNames raw) ∧
    (normalize_boroughs raw).Nodup ∧
    (normalize_boroughs raw).Pairwise
      (fun a b => (collectNames raw).indexOf a < (collectNames raw).indexOf b) ∧
    normalize_boroughs (normalize_boroughs raw) = normalize_boroughs raw := by
  refine ⟨?_, ?_, ?_, ?_, ?_⟩
  · intro x hx
    exact mem_canonical_of_mem_collectNames (mem_of_mem_dedupFirstBy hx)
  · intro x hx
    exact mem_of_mem_dedupFirstBy hx
  · exact nodup_dedupFirstBy [] _
  · exact pairwise_indexOf_dedupFirstBy [] _
  · have hcanon : ∀ x ∈ normalize_boroughs raw, x ∈ canonicalBoroughs := by
      intro x hx
      exact mem_canonical_of_mem_collectNames (mem_of_mem_dedupFirstBy hx)
    show dedupFirstBy id [] (collectNames (normalize_boroughs raw)) = normalize_boroughs raw
    rw [collectNames_of_canonical hcanon]
    exact dedupFirstBy_eq_self (nodup_dedupFirstBy [] _) [] (by simp)


theorem takeSampler_ok {ρ : Type} : SamplerOK (takeSampler (ρ := ρ)) := by
  intro l n hn
  exact ⟨List.length_take_of_le hn, fun x hx => List.mem_of_mem_take hx⟩


/- Helpers about the re-ranking block. -/

theorem rerank_none {ρ : Type} [Inhabited ρ] (query : String) (textOf : ρ → String)
    (limit : ℕ) (df : List ρ) : rerank none query textOf limit df = df := rfl

theorem rerank_error {ρ : Type} [Inhabited ρ] {e : EmbeddingClient} {query : String}
    {textOf : ρ → String} {limit : ℕ} {df : List ρ} {err : String}
    (h : top_k_by_embedding query (df.map textOf) e (min limit df.length) =
      Except.error err) :
    rerank (some e) query textOf limit df = df := by
  simp only [rerank, h]

theorem mem_rerank {ρ : Type} [Inhabited ρ] {emb : Option EmbeddingClient}
    {query : String} {textOf : ρ → String} {limit : ℕ} {df : List ρ} {r : ρ}
    (h : r ∈ rerank emb query textOf limit df) : r ∈ df := by
  cases emb with
  | none => exact h
  | some e =>
    cases htk : top_k_by_embedding query (df.map textOf) e (min limit df.length) with
    | error err => simpa only [rerank, htk] using h
    | ok idxs =>
      simp only [rerank, htk] at h
      by_cases hall : (idxs.all fun i => decide (i < df.length)) = true
      · rw [if_pos hall] at h
        rcases List.mem_map.mp h with ⟨i, hi, rfl⟩
        have hlt : i < df.length := by
          have := List.all_eq_true.mp hall i hi
          simpa using this
        have hget : df.getD i default = df[i] := by
          rw [List.getD_eq_getElem?_getD, List.getElem?_eq_getElem hlt]
          rfl
        rw [hget]
        exact List.getElem_mem hlt
      · rw [if_neg hall] at h
        exact h

theorem top_k_ok_length {query : String} {items : List String}
    {e : EmbeddingClient} {k : ℕ} {idxs : List ℕ}
    (h : top_k_by_embedding query items e k = Except.ok idxs) :
    idxs.length ≤ k := by
  unfold top_k_by_embedding at h
  split at h
  · simp at h
  · split at h
    · simp only [Except.ok.injEq] at h
      subst h
      simp
    · split at h
      · simp at h
      · split at h
        · simp at h
        · simp only [Except.ok.injEq] at h
          subst h
          rw [List.length_map]
          exact List.length_take_le _ _

theorem rerank_length_le {ρ : Type} [Inhabited ρ] {emb : Option EmbeddingClient}
    {query : String} {textOf : ρ → String} {limit : ℕ} {df : List ρ}
    (hdf : df.length ≤ limit) :
    (rerank emb query textOf limit df).length ≤ limit := by
  cases emb with
  | none => exact hdf
  | some e =>
    cases htk : top_k_by_embedding query (df.map textOf) e (min limit df.length) with
    | error err => simpa only [rerank, htk] using hdf
    | ok idxs =>
      simp only [rerank, htk]
      by_cases hall : (idxs.all fun i => decide (i < df.length)) = true
      · rw [if_pos hall, List.length_map]
        exact le_trans (top_k_ok_length htk) (min_le_left _ _)
      · rw [if_neg hall]
        exact hdf

/- Helpers about _filter_boros. -/

theorem mem_filter_boros {ρ : Type} {boroOf : ρ → Option String} {df : List ρ}
    {boros : List String} {r : ρ} (h : r ∈ filter_boros boroOf df boros) :
    r ∈ df := by
  unfold filter_boros at h
  split at h
  · exact h
  · split at h
    · exact h
    · exact (List.mem_filter.mp h).1

theorem filter_boros_prop {ρ : Type} {boroOf : ρ → Option String} {df : List ρ}
    {boros : List String} (hne : boros ≠ [])
    (hfil : ¬ (df.filter fun r => boroMask boros (boroOf r)).isEmpty = true) :
    ∀ r ∈ filter_boros boroOf df boros, boroMask boros (boroOf r) = true := by
  intro r hr
  unfold filter_boros at hr
  rw [if_neg hne, if_neg hfil] at hr
  exact (List.mem_filter.mp hr).2

/- Row-count bounds on the pre-embedding pipelines. -/

theorem sliceSample_length_le {ρ : Type} {samp : Sampler ρ} (hs : SamplerOK samp)
    (L : List ρ) (limit : ℕ) :
    (if limit < L.length then samp (L.take (limit * 3)) limit else L).length ≤
      limit := by
  split
  · next h =>
    have htake : limit ≤ (L.take (limit * 3)).length := by
      rw [List.length_take]
      omega
    rw [(hs _ limit htake).1]
  · next h => omega

theorem plainSample_length_le {ρ : Type} {samp : Sampler ρ} (hs : SamplerOK samp)
    (L : List ρ) (limit : ℕ) :
    (if limit < L.length then samp L limit else L).length ≤ limit := by
  split
  · next h => rw [(hs L limit (le_of_lt h)).1]
  · next h => omega

theorem hotels_core_length_le (td : TravelData) (samp : Sampler HotelRow)
    (boros : List String) (budget : String) (limit : ℕ) (hs : SamplerOK samp) :
    (hotels_core td samp boros budget limit).length ≤ limit := by
  simp only [hotels_core]
  rw [List.length_map]
  exact sliceSample_length_le hs _ limit

theorem attractions_core_length_le (td : TravelData) (samp : Sampler AttractionRow)
    (boros : List String) (limit : ℕ) (hs : SamplerOK samp) :
    (attractions_core td samp boros limit).length ≤ limit := by
  simp only [attractions_core]
  exact plainSample_length_le hs _ limit

theorem restaurants_core_length_le (td : TravelData) (boros : List String)
    (limit : ℕ) : (restaurants_core td boros limit).length ≤ limit := by
  simp only [restaurants_core]
  split
  · exact List.length_take_le _ _
  · next h => omega

/-- C1: for TravelData built with use_embeddings=True, a raising
EmbeddingClient construction makes the embedder property None, and a raising
top_k_by_embedding call inside hotels_for_budget, pick_attractions or
pick_restaurants is swallowed, the method returning its pre-ranking candidate
frame, i.e. the result of the non-embedding filtering/sorting path. -/
theorem graceful_degradation (td : TravelData) (hU : td.use_embeddings = true) :
    (∀ err, td.embInit = Except.error err → td.embedder = none) ∧
    (td.embedder = none → ∀ sampH sampA boros budget limit,
      hotels_for_budget td sampH boros budget limit =
        hotels_core td sampH boros budget limit ∧
      pick_attractions td sampA boros limit = attractions_core td sampA boros limit ∧
      pick_restaurants td boros limit = restaurants_core td boros limit) ∧
    (∀ e, td.embedder = some e → ∀ sampH boros budget limit err,
      top_k_by_embedding (hotelQuery boros budget)
          ((hotels_core td sampH boros budget limit).map hotelText) e
          (min limit (hotels_core td sampH boros budget limit).length) =
        Except.error err →
      hotels_for_budget td sampH boros budget limit =
        hotels_core td sampH boros budget limit) ∧
    (∀ e, td.embedder = some e → ∀ sampA boros limit err,
      top_k_by_embedding (attractionQuery boros)
          ((attractions_core td sampA boros limit).map attractionText) e
          (min limit (attractions_core td sampA boros limit).length) =
        Except.error err →
      pick_attractions td sampA boros limit =
        attractions_core td sampA boros limit) ∧
    (∀ e, td.embedder = some e → ∀ boros limit err,
      top_k_by_embedding (restaurantQuery boros)
          ((restaurants_core td boros limit).map restaurantText) e
          (min limit (restaurants_core td boros limit).length) =
        Except.error err →
      pick_restaurants td boros limit = restaurants_core td boros limit) := by
  refine ⟨?_, ?_, ?_, ?_, ?_⟩
  · intro err he
    simp [TravelData.embedder, hU, he]
  · intro hnone sampH sampA boros budget limit
    refine ⟨?_, ?_, ?_⟩
    · rw [hotels_for_budget, hnone, rerank_none]
    · rw [pick_attractions, hnone, rerank_none]
    · rw [pick_restaurants, hnone, rerank_none]
  · intro e he sampH boros budget limit err htk
    rw [hotels_for_budget, he, rerank_error htk]
  · intro e he sampA boros limit err htk
    rw [pick_attractions, he, rerank_error htk]
  · intro e he boros limit err htk
    rw [pick_restaurants, he, rerank_error htk]

/-- Witness for C1: on a TravelData whose backend construction failed, the
embedder property is None. -/
theorem graceful_degradation_witness : tdEmbFail.embedder = none :=
  (graceful_degradation tdEmbFail rfl).1 "ollama down" rfl

/-- C5: app.main passes the keyword arguments season and pace to
build_context, whose four parameters do not include them, so for every run of
the interactive prompts the call raises TypeError and the model is never
reached, whatever the LLM would answer. -/
theorem main_always_type_error (days : ℕ) (boros : List String)
    (budget season pace : String) (data : TravelData) (sampH : Sampler HotelRow)
    (sampA : Sampler AttractionRow) (llm : String → String)
    (promptOf : String → ℕ → List String → String → String → String → String) :
    main_model days boros budget season pace data sampH sampA llm promptOf =
      MainOutcome.typeError := by
  unfold main_model
  rw [show pyCallBinds build_context_params main_call_numPositional
    main_call_kwargs = false by decide]
  simp

/-- C7: every row generated by generate_nyc_hotel_dataset carries a BoroName
obtained by point-in-polygon containment in one of the borough shapes,
positive numeric high and low rates, and the budget tier derived from
high_rate with thresholds 100 and 300. -/
theorem generate_dataset_postcondition (hotels : List RawHotelRow)
    (shapes : List BoroShape) (transformer : ℚ × ℚ → ℚ × ℚ) :
    ∀ row ∈ generate_nyc_hotel_dataset hotels shapes transformer,
      (∃ b la lo, row.BoroName = some b ∧ row.latitude = some la ∧
        row.longitude = some lo ∧
        ∃ s ∈ shapes, s.contains (transformer (lo, la)) = true ∧ s.BoroName = b) ∧
      (∃ hr, row.high_rate = some hr ∧ 0 < hr ∧
        (hr < 100 → row.budget_tier = some "low") ∧
        (100 ≤ hr → hr < 300 → row.budget_tier = some "medium") ∧
        (300 ≤ hr → row.budget_tier = some "high")) ∧
      (∃ lr, row.low_rate = some lr ∧ 0 < lr) := by
  intro row hrow
  simp only [generate_nyc_hotel_dataset, List.mem_map, List.mem_filter] at hrow
  rcases hrow with ⟨h, ⟨⟨⟨raw, hraw, rfl⟩, hsome⟩, hrate⟩, rfl⟩
  dsimp only at hsome hrate ⊢
  cases hla : raw.latitude with
  | none => rw [hla] at hsome; simp [boro_from_point] at hsome
  | some la =>
  cases hlo : raw.longitude with
  | none => rw [hla, hlo] at hsome; simp [boro_from_point] at hsome
  | some lo =>
  rw [hla, hlo] at hsome
  simp only [boro_from_point] at hsome
  cases hfind : shapes.find? fun s => s.contains (transformer (lo, la)) with
  | none => rw [hfind] at hsome; simp at hsome
  | some s =>
  cases hhr : raw.high_rate with
  | none => rw [hhr] at hrate; simp at hrate
  | some hr =>
  cases hlr : raw.low_rate with
  | none => rw [hhr, hlr] at hrate; simp at hrate
  | some lr =>
  rw [hhr, hlr] at hrate
  simp only [Bool.and_eq_true, decide_eq_true_eq] at hrate
  refine ⟨⟨s.BoroName, la, lo, ?_, by simp [hla], by simp [hlo], s,
      List.mem_of_find?_eq_some hfind, by simpa using List.find?_some hfind, rfl⟩,
    ?_, ?_⟩
  · simp [hla, hlo, boro_from_point, hfind]
  · refine ⟨hr, by simp [hhr], hrate.1, ?_, ?_, ?_⟩
    · intro hlt
      simp [hhr, budget_tier_of, if_pos hlt]
    · intro hge hlt
      have hn : ¬ hr < 100 := not_lt.mpr hge
      simp [hhr, budget_tier_of, if_neg hn, if_pos hlt]
    · intro hge
      have h1 : ¬ hr < 100 := by linarith
      have h2 : ¬ hr < 300 := not_lt.mpr hge
      simp [hhr, budget_tier_of, if_neg h1, if_neg h2]
  · exact ⟨lr, by simp [hlr], hrate.2⟩

/-- Witness for C7: a hotel at a point contained in a Manhattan shape, rates
50 and 40, lands in the output with that borough and the low tier. -/
theorem generate_dataset_postcondition_witness :
    ∃ b la lo, genRow.BoroName = some b ∧ genRow.latitude = some la ∧
      genRow.longitude = some lo ∧
      ∃ s ∈ [genShape], s.contains (id (lo, la)) = true ∧ s.BoroName = b :=
  (generate_dataset_postcondition [genRaw] [genShape] id genRow (by decide)).1

/-- C9: for every table contents and non-negative limit, each retrieval
method returns at most limit rows, on both the embedding and the
non-embedding paths (the re-ranking keeps min(limit, candidates) indices). -/
theorem limit_bound (td : TravelData) (sampH : Sampler HotelRow)
    (sampA : Sampler AttractionRow) (boros : List String) (budget : String)
    (limit : ℕ) (hsH : SamplerOK sampH) (hsA : SamplerOK sampA) :
    (hotels_for_budget td sampH boros budget limit).length ≤ limit ∧
    (pick_attractions td sampA boros limit).length ≤ limit ∧
    (pick_restaurants td boros limit).length ≤ limit :=
  ⟨rerank_length_le (hotels_core_length_le td sampH boros budget limit hsH),
   rerank_length_le (attractions_core_length_le td sampA boros limit hsA),
   rerank_length_le (restaurants_core_length_le td boros limit)⟩

/-- Witness for C9 at a concrete TravelData, samplers and limit 3. -/
theorem limit_bound_witness :
    (hotels_for_budget tdNoEmb takeSampler ["Manhattan"] "low" 3).length ≤ 3 :=
  (limit_bound tdNoEmb takeSampler takeSampler ["Manhattan"] "low" 3
    takeSampler_ok takeSampler_ok).1

/- Membership chains through the sampling and sorting steps. -/

theorem mem_sliceSample {ρ : Type} {samp : Sampler ρ} (hs : SamplerOK samp)
    {L : List ρ} {limit : ℕ} {r : ρ}
    (h : r ∈ (if limit < L.length then samp (L.take (limit * 3)) limit else L)) :
    r ∈ L := by
  split at h
  · next hlt =>
    have hle : limit ≤ (L.take (limit * 3)).length := by
      rw [List.length_take]
      omega
    exact List.mem_of_mem_take ((hs _ limit hle).2 r h)
  · exact h

theorem mem_plainSample {ρ : Type} {samp : Sampler ρ} (hs : SamplerOK samp)
    {L : List ρ} {limit : ℕ} {r : ρ}
    (h : r ∈ (if limit < L.length then samp L limit else L)) : r ∈ L := by
  split at h
  · next hlt => exact (hs L limit (le_of_lt hlt)).2 r h
  · exact h

/- Every row of the pre-embedding hotels pipeline is the projection of a
   borough-filtered row that passed the rate filter (when the budget is a
   known bucket). -/
theorem hotels_core_shape (td : TravelData) (samp : Sampler HotelRow)
    (boros : List String) (budget : String) (limit : ℕ) (hs : SamplerOK samp) :
    ∀ r ∈ hotels_core td samp boros budget limit,
      ∃ r0, r = projectHotel r0 ∧
        r0 ∈ filter_boros (fun r : HotelRow => r.BoroName) td.hotels boros ∧
        (∀ range, BUDGET_TO_PRICE.lookup (pyLower budget) = some range →
          rateFilterOK range r0.high_rate = true) := by
  intro r hr
  simp only [hotels_core] at hr
  rcases List.mem_map.mp hr with ⟨r0, hr0, rfl⟩
  have hL := mem_sliceSample hs hr0
  have hdf2 := (List.perm_insertionSort hotelSortLE _).mem_iff.mp hL
  refine ⟨r0, rfl, ?_, ?_⟩
  · cases hlk : BUDGET_TO_PRICE.lookup (pyLower budget) with
    | none =>
      simp only [hlk] at hdf2
      exact (List.mem_filter.mp hdf2).1
    | some range =>
      simp only [hlk] at hdf2
      exact (List.mem_filter.mp (List.mem_filter.mp hdf2).1).1
  · intro range hr2
    simp only [hr2] at hdf2
    exact (List.mem_filter.mp hdf2).2

theorem mem_attractions_core {td : TravelData} {samp : Sampler AttractionRow}
    {boros : List String} {limit : ℕ} {r : AttractionRow} (hs : SamplerOK samp)
    (h : r ∈ attractions_core td samp boros limit) :
    r ∈ filter_boros (fun r : AttractionRow => r.BoroName) td.attractions boros := by
  simp only [attractions_core] at h
  exact mem_of_mem_dedupFirstBy (mem_plainSample hs h)

theorem mem_restaurants_core_pool {td : TravelData} {boros : List String}
    {limit : ℕ} {r : RestaurantRow} (h : r ∈ restaurants_core td boros limit) :
    r ∈ dedupFirstBy (fun r : RestaurantRow => r.Name) []
      (filter_boros (fun r : RestaurantRow => r.BoroName) td.restaurants boros) := by
  simp only [restaurants_core] at h
  have h2 : r ∈ List.insertionSort restSortLE
      (dedupFirstBy (fun r : RestaurantRow => r.Name) []
        (filter_boros (fun r : RestaurantRow => r.BoroName) td.restaurants boros)) := by
    split at h
    · exact List.mem_of_mem_take h
    · exact h
  exact (List.perm_insertionSort restSortLE _).mem_iff.mp h2

/- The borough mask is the case-insensitive membership of the claim. -/
theorem boroMask_eq_true {boros : List String} {b? : Option String} :
    boroMask boros b? = true ↔
      ∃ b, b? = some b ∧ pyLower b ∈ boros.map pyLower := by
  cases b? with
  | none => simp [boroMask]
  | some b => simp [boroMask, List.elem_iff]

/-- C2 counterexample: with requested borough Manhattan and an attractions
table whose only row is in Brooklyn, the emptied filter falls back to the
whole table (rag.py lines 85-87), so pick_attractions returns a row whose
BoroName matches no requested borough. -/
theorem borough_filter_counterexample :
    ¬ (∀ r ∈ pick_attractions tdNoEmb takeSampler ["Manhattan"] 12,
        ∃ b, r.BoroName = some b ∧ pyLower b ∈ (["Manhattan"].map pyLower)) := by
  intro h
  have hmem : brooklynAttr ∈ pick_attractions tdNoEmb takeSampler ["Manhattan"] 12 := by
    rw [pick_attractions, show tdNoEmb.embedder = none from rfl, rerank_none]
    decide
  rcases h brooklynAttr hmem with ⟨b, hb, hpy⟩
  rw [show brooklynAttr.BoroName = some "Brooklyn" from rfl] at hb
  cases hb
  revert hpy
  decide

/-- C2 (amended): for a non-empty borough list, every returned row of the
three methods has a BoroName equal ignoring case to a requested borough,
provided the borough filter keeps at least one row of each table (when it
keeps none, _filter_boros falls back to the whole unfiltered table). -/
theorem borough_filter_amended (td : TravelData) (sampH : Sampler HotelRow)
    (sampA : Sampler AttractionRow) (boros : List String) (budget : String)
    (limH limA limR : ℕ) (hsH : SamplerOK sampH) (hsA : SamplerOK sampA)
    (hne : boros ≠ [])
    (hH : ¬ (td.hotels.filter fun r => boroMask boros r.BoroName).isEmpty = true)
    (hA : ¬ (td.attractions.filter fun r => boroMask boros r.BoroName).isEmpty = true)
    (hR : ¬ (td.restaurants.filter fun r => boroMask boros r.BoroName).isEmpty = true) :
    (∀ r ∈ hotels_for_budget td sampH boros budget limH,
      ∃ b, r.BoroName = some b ∧ pyLower b ∈ boros.map pyLower) ∧
    (∀ r ∈ pick_attractions td sampA boros limA,
      ∃ b, r.BoroName = some b ∧ pyLower b ∈ boros.map pyLower) ∧
    (∀ r ∈ pick_restaurants td boros limR,
      ∃ b, r.BoroName = some b ∧ pyLower b ∈ boros.map pyLower) := by
  refine ⟨?_, ?_, ?_⟩
  · intro r hr
    rcases hotels_core_shape td sampH boros budget limH hsH r (mem_rerank hr) with
      ⟨r0, rfl, hr0, _⟩
    have hmask := filter_boros_prop hne hH r0 hr0
    exact boroMask_eq_true.mp hmask
  · intro r hr
    have hr0 := mem_attractions_core hsA (mem_rerank hr)
    exact boroMask_eq_true.mp (filter_boros_prop hne hA r hr0)
  · intro r hr
    have hr0 := mem_of_mem_dedupFirstBy (mem_restaurants_core_pool (mem_rerank hr))
    exact boroMask_eq_true.mp (filter_boros_prop hne hR r hr0)

/-- Witness for the amended C2: on an all-Manhattan table, the returned
restaurant row matches the requested borough. -/
theorem borough_filter_amended_witness :
    ∃ b, fixtureRest.BoroName = some b ∧ pyLower b ∈ (["Manhattan"].map pyLower) :=
  (borough_filter_amended tdManhattan takeSampler takeSampler ["Manhattan"]
    "low" 3 5 4 takeSampler_ok takeSampler_ok (by decide) (by decide) (by decide)
    (by decide)).2.2 fixtureRest
    (by rw [pick_restaurants, show tdManhattan.embedder = none from rfl, rerank_none]
        decide)

/-- C3: when the lowercased budget is a BUDGET_TO_PRICE bucket, every row
returned by hotels_for_budget has a numeric high_rate v with lo <= v and
v < hi for a finite upper bound (none for the unbounded high bucket); rows
with missing or non-numeric high_rate are excluded. -/
theorem budget_filter (td : TravelData) (samp : Sampler HotelRow)
    (boros : List String) (budget : String) (limit : ℕ) (range : ℚ × Option ℚ)
    (hs : SamplerOK samp)
    (hb : BUDGET_TO_PRICE.lookup (pyLower budget) = some range) :
    ∀ r ∈ hotels_for_budget td samp boros budget limit,
      ∃ v, r.high_rate = some v ∧ range.1 ≤ v ∧
        ∀ hi, range.2 = some hi → v < hi := by
  intro r hr
  rcases hotels_core_shape td samp boros budget limit hs r (mem_rerank hr) with
    ⟨r0, rfl, _, hrate⟩
  have h := hrate range hb
  cases hhr : r0.high_rate with
  | none => rw [hhr] at h; simp [rateFilterOK] at h
  | some v =>
    rw [hhr] at h
    simp only [rateFilterOK, Bool.and_eq_true, decide_eq_true_eq] at h
    refine ⟨v, by simp [projectHotel, hhr], h.1, ?_⟩
    intro hi hhi
    have h2 := h.2
    rw [hhi] at h2
    simpa using h2

/-- Witness for C3: the medium bucket at a concrete table, evaluated at the
returned row. -/
theorem budget_filter_witness :
    ∃ v, (projectHotel fixtureHotel).high_rate = some v ∧
      ((100 : ℚ), (some (300 : ℚ) : Option ℚ)).1 ≤ v ∧
      ∀ hi, ((100 : ℚ), (some (300 : ℚ) : Option ℚ)).2 = some hi → v < hi :=
  budget_filter tdNoEmb takeSampler ["Manhattan"] "medium" 5 (100, some 300)
    takeSampler_ok (by decide) (projectHotel fixtureHotel)
    (by rw [hotels_for_budget, show tdNoEmb.embedder = none from rfl, rerank_none]
        decide)

/-- C8: with re-ranking disabled or unavailable and a non-negative limit,
pick_restaurants returns the first limit rows of the borough-filtered,
Name-deduplicated table in non-increasing Rating order with missing ratings
last: the limit highest-rated distinct-Name restaurants. -/
theorem restaurant_sorting (td : TravelData) (boros : List String) (limit : ℕ)
    (hEmb : td.embedder = none) :
    (pick_restaurants td boros limit).length =
      min limit (dedupFirstBy (fun r : RestaurantRow => r.Name) []
        (filter_boros (fun r : RestaurantRow => r.BoroName) td.restaurants boros)).length ∧
    (pick_restaurants td boros limit).Pairwise
      (fun x y => ratingKey y.Rating ≤ ratingKey x.Rating) ∧
    (∀ r ∈ pick_restaurants td boros limit,
      r ∈ dedupFirstBy (fun r : RestaurantRow => r.Name) []
        (filter_boros (fun r : RestaurantRow => r.BoroName) td.restaurants boros)) ∧
    (∀ p ∈ dedupFirstBy (fun r : RestaurantRow => r.Name) []
        (filter_boros (fun r : RestaurantRow => r.BoroName) td.restaurants boros),
      p ∉ pick_restaurants td boros limit →
      ∀ s ∈ pick_restaurants td boros limit,
        ratingKey p.Rating ≤ ratingKey s.Rating) := by
  have hpr : pick_restaurants td boros limit = restaurants_core td boros limit := by
    rw [pick_restaurants, hEmb, rerank_none]
  have hcore : restaurants_core td boros limit =
      (List.insertionSort restSortLE
        (dedupFirstBy (fun r : RestaurantRow => r.Name) []
          (filter_boros (fun r : RestaurantRow => r.BoroName) td.restaurants boros))).take
        limit := by
    simp only [restaurants_core]
    split
    · rfl
    · next h => rw [List.take_of_length_le (by omega)]
  rw [hpr, hcore]
  have hsorted := List.sorted_insertionSort restSortLE
    (dedupFirstBy (fun r : RestaurantRow => r.Name) []
      (filter_boros (fun r : RestaurantRow => r.BoroName) td.restaurants boros))
  have hperm := List.perm_insertionSort restSortLE
    (dedupFirstBy (fun r : RestaurantRow => r.Name) []
      (filter_boros (fun r : RestaurantRow => r.BoroName) td.restaurants boros))
  refine ⟨?_, ?_, ?_, ?_⟩
  · rw [List.length_take, hperm.length_eq]
  · exact List.Pairwise.sublist (List.take_sublist _ _) hsorted
  · intro r hrr
    exact hperm.mem_iff.mp (List.mem_of_mem_take hrr)
  · intro p hp hpnot s hss
    have hpS : p ∈ List.insertionSort restSortLE
        (dedupFirstBy (fun r : RestaurantRow => r.Name) []
          (filter_boros (fun r : RestaurantRow => r.BoroName) td.restaurants boros)) :=
      hperm.mem_iff.mpr hp
    rw [← List.take_append_drop limit (List.insertionSort restSortLE _)] at hpS
    rcases List.mem_append.mp hpS with hpT | hpD
    · exact absurd hpT hpnot
    · have hP : List.Pairwise restSortLE _ := hsorted
      rw [← List.take_append_drop limit (List.insertionSort restSortLE _)] at hP
      exact (List.pairwise_append.mp hP).2.2 s hss p hpD

/-- Witness for C8 at a concrete TravelData with re-ranking unavailable,
evaluated at the returned row. -/
theorem restaurant_sorting_witness :
    fixtureRest ∈ dedupFirstBy (fun r : RestaurantRow => r.Name) []
      (filter_boros (fun r : RestaurantRow => r.BoroName)
        tdEmbFail.restaurants ["Manhattan"]) :=
  (restaurant_sorting tdEmbFail ["Manhattan"] 4 rfl).2.2.1 fixtureRest
    (by rw [pick_restaurants, show tdEmbFail.embedder = none from rfl, rerank_none]
        decide)

/- Python "s or d" helpers. -/

theorem strOr_ne_empty {s d : String} (hd : d ≠ "") : strOr s d ≠ "" := by
  unfold strOr
  split
  · exact hd
  · next h => exact h

theorem strOr_cases (s d : String) : strOr s d = s ∨ (s = "" ∧ strOr s d = d) := by
  unfold strOr
  split
  · next h => exact Or.inr ⟨h, rfl⟩
  · exact Or.inl rfl

/-- C6: for a positive day count, build_context begins with the traveler
request line (with All boroughs for an empty borough list and medium for an
empty budget), followed in order by the hotels, attractions and restaurants
sections, each replaced by its fixed placeholder when the formatted listing
is empty, so every section is non-empty. -/
theorem build_context_shape (boros : List String) (budget : String) (days : ℕ)
    (td : TravelData) (sampH : Sampler HotelRow) (sampA : Sampler AttractionRow)
    (_hd : 0 < days) : BuildContextShape boros budget days td sampH sampA := by
  refine ⟨strOr (format_hotels (hotels_for_budget td sampH boros budget 6))
      "- No matching hotels; suggest reasonable options.",
    strOr (format_attractions (pick_attractions td sampA boros (max (days * 3) 18)))
      "- No attractions found; suggest iconic sights.",
    strOr (format_restaurants (pick_restaurants td boros (max (days * 3) 18)))
      "- No restaurants found; suggest dependable picks.",
    rfl, strOr_ne_empty (by decide), strOr_ne_empty (by decide),
    strOr_ne_empty (by decide), strOr_cases _ _, strOr_cases _ _, strOr_cases _ _⟩

/-- Witness for C6 at two days, one borough and a concrete TravelData. -/
theorem build_context_shape_witness :
    BuildContextShape ["Manhattan"] "low" 2 tdNoEmb takeSampler takeSampler :=
  build_context_shape ["Manhattan"] "low" 2 tdNoEmb takeSampler takeSampler
    (by decide)

/- C4 helpers: with a total, fixed-dimension embedder every step of
   top_k_by_embedding succeeds and the score list is scoresOf. -/

theorem mapM_ok_of_forall {α β : Type} {F : α → Except String β} {g : α → β}
    {l : List α} (h : ∀ a ∈ l, F a = Except.ok (g a)) :
    l.mapM F = Except.ok (l.map g) := by
  induction l with
  | nil => rfl
  | cons x xs ih =>
    rw [List.mapM_cons, h x (List.mem_cons_self _ _),
      ih fun a ha => h a (List.mem_cons_of_mem _ ha)]
    rfl

theorem top_k_total_eq {emb : String → List ℝ} {d : ℕ}
    (hdim : ∀ t, (emb t).length = d) (query : String) {items : List String}
    (hne : items ≠ []) (k : ℕ) :
    top_k_by_embedding query items (totalClient emb) k =
      Except.ok ((((scoresOf emb query items).insertionSort simLE).take k).map
        Prod.fst) := by
  have hm : embed_many (totalClient emb) items = Except.ok (items.map emb) :=
    mapM_ok_of_forall fun a _ => rfl
  have hsc : (items.map emb).enum.mapM
      (fun p => (cosine_similarity (emb query) p.2).map fun s => (p.1, s)) =
      Except.ok (scoresOf emb query items) := by
    refine mapM_ok_of_forall ?_
    intro p hp
    have hp2 : p.2 ∈ items.map emb := by
      have h2 := List.mem_map_of_mem Prod.snd hp
      rwa [List.enum_map_snd] at h2
    rcases List.mem_map.mp hp2 with ⟨t, _, ht⟩
    have hlen : ¬ (emb query).length ≠ p.2.length := by
      rw [← ht, hdim query, hdim t]
      simp
    rw [cosine_similarity, if_neg hlen]
    rfl
  have hq : (totalClient emb).embed query = Except.ok (emb query) := rfl
  simp only [top_k_by_embedding, hq, if_neg hne, hm, hsc]

theorem scoresOf_map_fst (emb : String → List ℝ) (query : String)
    (items : List String) :
    (scoresOf emb query items).map Prod.fst = List.range items.length := by
  rw [scoresOf, List.map_map]
  have hcomp : (Prod.fst ∘ fun p : ℕ × List ℝ => (p.1, cosValue (emb query) p.2)) =
      Prod.fst := rfl
  rw [hcomp, List.enum_map_fst, List.length_map]

theorem scoresOf_length (emb : String → List ℝ) (query : String)
    (items : List String) :
    (scoresOf emb query items).length = items.length := by
  rw [scoresOf, List.length_map, List.enum_length, List.length_map]

theorem mem_scoresOf {emb : String → List ℝ} {query : String}
    {items : List String} {p : ℕ × ℝ} (hp : p ∈ scoresOf emb query items) :
    p.1 < items.length ∧ p = (p.1, simOf emb query items p.1) := by
  rcases List.mem_map.mp hp with ⟨q, hq, rfl⟩
  have hlt : q.1 < items.length := by
    have h2 := List.mem_map_of_mem Prod.fst hq
    rw [List.enum_map_fst, List.length_map] at h2
    exact List.mem_range.mp h2
  have h3 := List.mem_enum_iff_getElem?.mp hq
  rw [List.getElem?_map, List.getElem?_eq_getElem hlt] at h3
  have h4 : emb items[q.1] = q.2 := by simpa using h3
  have hgetD : items.getD q.1 "" = items[q.1] := by
    rw [List.getD_eq_getElem?_getD, List.getElem?_eq_getElem hlt]
    rfl
  refine ⟨hlt, ?_⟩
  show (q.1, cosValue (emb query) q.2) = (q.1, simOf emb query items q.1)
  unfold simOf
  rw [hgetD, h4]

theorem scoresOf_pairwise_fst (emb : String → List ℝ) (query : String)
    (items : List String) :
    (scoresOf emb query items).Pairwise fun a b => a.1 < b.1 := by
  have h2 : ((scoresOf emb query items).map Prod.fst).Pairwise (· < ·) := by
    rw [scoresOf_map_fst]
    exact List.pairwise_lt_range items.length
  exact List.pairwise_map.mp h2

theorem scoresOf_nodup (emb : String → List ℝ) (query : String)
    (items : List String) : (scoresOf emb query items).Nodup :=
  (scoresOf_pairwise_fst emb query items).imp fun hab he =>
    absurd (congrArg Prod.fst he) (Nat.ne_of_lt hab)

theorem scoresOf_mem_of_lt {emb : String → List ℝ} {query : String}
    {items : List String} {j : ℕ} (hj : j < items.length) :
    (j, simOf emb query items j) ∈ scoresOf emb query items := by
  have hj2 : j ∈ (scoresOf emb query items).map Prod.fst := by
    rw [scoresOf_map_fst]
    exact List.mem_range.mpr hj
  rcases List.mem_map.mp hj2 with ⟨p, hp, rfl⟩
  exact (mem_scoresOf hp).2 ▸ hp

/- In a strictly fst-increasing list, two members in fst order form a pair
   sublist. -/
theorem pair_sublist_of_pairwise {α : Type} {R : α → α → Prop} {l : List α}
    {x y : α} (hp : l.Pairwise R) (hasym : ∀ a b, R a b → ¬ R b a)
    (hx : x ∈ l) (hy : y ∈ l) (hxy : R x y) : [x, y].Sublist l := by
  induction l with
  | nil => cases hx
  | cons z t ih =>
    rcases List.pairwise_cons.mp hp with ⟨hz, hpt⟩
    rcases List.mem_cons.mp hx with rfl | hxt
    · rcases List.mem_cons.mp hy with rfl | hyt
      · exact absurd hxy (hasym _ _ hxy)
      · exact (List.singleton_sublist.mpr hyt).cons₂ x
    · rcases List.mem_cons.mp hy with rfl | hyt
      · exact absurd (hz x hxt) (hasym _ _ hxy)
      · exact (ih hpt hxt hyt).cons z

/- In a duplicate-free list a pair cannot appear as a sublist in both orders. -/
theorem sublist_pair_eq {α : Type} {l : List α} {a b : α} (hnd : l.Nodup)
    (h1 : [a, b].Sublist l) (h2 : [b, a].Sublist l) : a = b := by
  induction l with
  | nil => cases h1
  | cons z t ih =>
    rcases List.nodup_cons.mp hnd with ⟨hz, hndt⟩
    cases h1 with
    | cons _ h1t =>
      cases h2 with
      | cons _ h2t => exact ih hndt h1t h2t
      | cons₂ _ h2t =>
        exact absurd (h1t.subset (List.mem_cons_of_mem _ (List.mem_cons_self _ _))) hz
    | cons₂ _ h1t =>
      cases h2 with
      | cons _ h2t =>
        exact absurd (h2t.subset (List.mem_cons_of_mem _ (List.mem_cons_self _ _))) hz
      | cons₂ _ h2t => rfl

/- Stability of the stable sort over the index-increasing score list: equal
   scores keep index order. -/
theorem sorted_scores_tie (emb : String → List ℝ) (query : String)
    (items : List String) :
    ((scoresOf emb query items).insertionSort simLE).Pairwise
      fun p q => p.2 = q.2 → p.1 < q.1 := by
  have hperm := List.perm_insertionSort simLE (scoresOf emb query items)
  have hnodup : ((scoresOf emb query items).insertionSort simLE).Nodup :=
    hperm.nodup_iff.mpr (scoresOf_nodup emb query items)
  rw [List.pairwise_iff_forall_sublist]
  intro p q hsub heq
  have hpS : p ∈ scoresOf emb query items :=
    hperm.mem_iff.mp (hsub.subset (List.mem_cons_self _ _))
  have hqS : q ∈ scoresOf emb query items :=
    hperm.mem_iff.mp (hsub.subset (List.mem_cons_of_mem _ (List.mem_cons_self _ _)))
  rcases Nat.lt_trichotomy p.1 q.1 with h | h | h
  · exact h
  · have hpq : p = q := by
      rw [(mem_scoresOf hpS).2, (mem_scoresOf hqS).2, h]
    rw [hpq] at hsub
    exact absurd (List.Nodup.sublist hsub hnodup) (by simp)
  · have hqp_sub : [q, p].Sublist (scoresOf emb query items) :=
      pair_sublist_of_pairwise (scoresOf_pairwise_fst emb query items)
        (fun a b hab hba => Nat.lt_asymm hab hba) hqS hpS h
    have hqp_sorted : [q, p].Sublist
        ((scoresOf emb query items).insertionSort simLE) :=
      List.sublist_insertionSort (List.pairwise_pair.mpr (le_of_eq heq)) hqp_sub
    have hpq : p = q := sublist_pair_eq hnodup hsub hqp_sorted
    exact absurd (congrArg Prod.fst hpq) (Nat.ne_of_lt' h)

/-- C4: for every query, finite item list, non-negative k and total
fixed-dimension embedder, top_k_by_embedding succeeds, returns [] on an empty
item list, and otherwise min(k, n) distinct in-range indices ordered by
non-increasing cosine similarity to the query, with no omitted item scoring
strictly above any returned one and ties broken toward the lower index by the
stable sort. -/
theorem top_k_spec (query : String) (items : List String)
    (emb : String → List ℝ) (d : ℕ) (hdim : ∀ t, (emb t).length = d) (k : ℕ) :
    ∃ idxs, top_k_by_embedding query items (totalClient emb) k = Except.ok idxs ∧
      (items = [] → idxs = []) ∧
      idxs.length = min k items.length ∧
      idxs.Nodup ∧
      (∀ i ∈ idxs, i < items.length) ∧
      idxs.Pairwise (fun i j =>
        simOf emb query items j ≤ simOf emb query items i) ∧
      (∀ j < items.length, j ∉ idxs → ∀ i ∈ idxs,
        simOf emb query items j ≤ simOf emb query items i) ∧
      idxs.Pairwise (fun i j =>
        simOf emb query items i = simOf emb query items j → i < j) := by
  by_cases hne : items = []
  · subst hne
    refine ⟨[], rfl, fun _ => rfl, by simp, List.nodup_nil, by simp, by simp,
      by simp, by simp⟩
  · have heq := top_k_total_eq hdim query hne k
    set S := scoresOf emb query items with hS
    set sorted := S.insertionSort simLE with hsorted_def
    have hperm : sorted.Perm S := List.perm_insertionSort simLE S
    have hsortedP : sorted.Pairwise simLE := List.sorted_insertionSort simLE S
    have hnodup : sorted.Nodup := hperm.nodup_iff.mpr (scoresOf_nodup emb query items)
    have hmemS : ∀ p ∈ sorted, p ∈ S := fun p hp => hperm.mem_iff.mp hp
    refine ⟨(sorted.take k).map Prod.fst, heq, fun h => absurd h hne, ?_, ?_, ?_,
      ?_, ?_, ?_⟩
    · rw [List.length_map, List.length_take, hperm.length_eq, hS, scoresOf_length]
    · refine List.Nodup.map_on ?_ (List.Nodup.sublist (List.take_sublist _ _) hnodup)
      intro x hx y hy hxy
      have hxS := mem_scoresOf (hmemS x (List.mem_of_mem_take hx))
      have hyS := mem_scoresOf (hmemS y (List.mem_of_mem_take hy))
      rw [hxS.2, hyS.2, hxy]
    · intro i hi
      rcases List.mem_map.mp hi with ⟨p, hp, rfl⟩
      exact (mem_scoresOf (hmemS p (List.mem_of_mem_take hp))).1
    · rw [List.pairwise_map]
      refine List.Pairwise.imp_of_mem ?_
        (List.Pairwise.sublist (List.take_sublist _ _) hsortedP)
      intro a b ha hb hab
      have ha2 : a.2 = simOf emb query items a.1 :=
        congrArg Prod.snd (mem_scoresOf (hmemS a (List.mem_of_mem_take ha))).2
      have hb2 : b.2 = simOf emb query items b.1 :=
        congrArg Prod.snd (mem_scoresOf (hmemS b (List.mem_of_mem_take hb))).2
      rw [← ha2, ← hb2]
      exact hab
    · intro j hj hnot i hi
      have hpj : (j, simOf emb query items j) ∈ S := scoresOf_mem_of_lt hj
      have hpjSorted : (j, simOf emb query items j) ∈ sorted := hperm.mem_iff.mpr hpj
      rw [← List.take_append_drop k sorted] at hpjSorted
      rcases List.mem_append.mp hpjSorted with hT | hD
      · exact absurd (List.mem_map_of_mem Prod.fst hT) hnot
      · rcases List.mem_map.mp hi with ⟨p, hp, rfl⟩
        have hP := hsortedP
        rw [← List.take_append_drop k sorted] at hP
        have hle := (List.pairwise_append.mp hP).2.2 p hp _ hD
        have hp2 : p.2 = simOf emb query items p.1 :=
          congrArg Prod.snd (mem_scoresOf (hmemS p (List.mem_of_mem_take hp))).2
        rw [← hp2]
        exact hle
    · rw [List.pairwise_map]
      refine List.Pairwise.imp_of_mem ?_
        (List.Pairwise.sublist (List.take_sublist _ _) (sorted_scores_tie emb query items))
      intro a b ha hb hab heq2
      have ha2 : a.2 = simOf emb query items a.1 :=
        congrArg Prod.snd (mem_scoresOf (hmemS a (List.mem_of_mem_take ha))).2
      have hb2 : b.2 = simOf emb query items b.1 :=
        congrArg Prod.snd (mem_scoresOf (hmemS b (List.mem_of_mem_take hb))).2
      exact hab (by rw [ha2, hb2]; exact heq2)

/-- Witness for C4: the constant dimension-1 embedder on two items, k = 1. -/
theorem top_k_spec_witness :
    ∃ idxs, top_k_by_embedding "nyc" ["a", "b"]
        (totalClient fun _ => ([1] : List ℝ)) 1 = Except.ok idxs ∧
      ((["a", "b"] : List String) = [] → idxs = []) ∧
      idxs.length = min 1 (["a", "b"] : List String).length ∧
      idxs.Nodup ∧
      (∀ i ∈ idxs, i < (["a", "b"] : List String).length) ∧
      idxs.Pairwise (fun i j =>
        simOf (fun _ => ([1] : List ℝ)) "nyc" ["a", "b"] j ≤
          simOf (fun _ => ([1] : List ℝ)) "nyc" ["a", "b"] i) ∧
      (∀ j < (["a", "b"] : List String).length, j ∉ idxs → ∀ i ∈ idxs,
        simOf (fun _ => ([1] : List ℝ)) "nyc" ["a", "b"] j ≤
          simOf (fun _ => ([1] : List ℝ)) "nyc" ["a", "b"] i) ∧
      idxs.Pairwise (fun i j =>
        simOf (fun _ => ([1] : List ℝ)) "nyc" ["a", "b"] i =
          simOf (fun _ => ([1] : List ℝ)) "nyc" ["a", "b"] j → i < j) :=
  top_k_spec "nyc" ["a", "b"] (fun _ => [1]) 1 (fun _ => rfl) 1

end TinyTravel
